import Mathlib

/-!
# Verification of the travel-advisor agent core loop

Shallow embedding of the plan→route→execute→verify→repair control loop of
the backend (`backend/app/agent/*.py`, `backend/app/tools/base.py`) and
proofs of the specification claims about it.

Conventions of the embedding:
* Python `float` money/limit values are modelled as `ℚ` (all arithmetic the
  claims exercise is exact decimal arithmetic at magnitudes where `float`
  is exact as well).
* Python dicts are modelled as insertion-ordered association lists with
  CPython's update semantics (existing keys keep their position and get the
  new value, new keys are appended).
* Wall-clock instants (`datetime.now()`, `time.time()`) are passed in as
  explicit parameters measured in seconds (`ℚ`).
* Dynamically-typed payloads (`Any` / JSON-like tool outputs) are modelled
  by the `JValue` type below.
-/

namespace TravelAdvisor

set_option maxRecDepth 200000

mutual
/-- JSON-like dynamic value, modelling the `Any`-typed payloads that flow
through `Constraint.value`, the working set and tool outputs.  Python `int`
and `float` are conflated into `num`.  Arrays and objects are given by the
companion types `JArr` and `JObj` (isomorphic to lists, see `JArr.toList`
and `JObj.toList`). -/
inductive JValue where
  | null : JValue
  | bool : Bool → JValue
  | num : ℚ → JValue
  | str : String → JValue
  | arr : JArr → JValue
  | obj : JObj → JValue
inductive JArr where
  | nil : JArr
  | cons : JValue → JArr → JArr
inductive JObj where
  | nil : JObj
  | cons : String → JValue → JObj → JObj
end

deriving instance DecidableEq for JValue, JArr, JObj

/-- The elements of an array value as a list. -/
def JArr.toList : JArr → List JValue
  | .nil => []
  | .cons v t => v :: t.toList

/-- The fields of an object value as an association list (CPython dicts are
insertion-ordered with unique keys). -/
def JObj.toList : JObj → List (String × JValue)
  | .nil => []
  | .cons k v t => (k, v) :: t.toList

/-- Build an array value from a list. -/
def JArr.ofList : List JValue → JArr
  | [] => .nil
  | v :: t => .cons v (ofList t)

/-- Build an object value from an association list. -/
def JObj.ofList : List (String × JValue) → JObj
  | [] => .nil
  | (k, v) :: t => .cons k v (ofList t)

@[simp] theorem JArr.toList_ofList_arr (l : List JValue) : (JArr.ofList l).toList = l := by
  induction l with
  | nil => rfl
  | cons v t ih => simp [JArr.ofList, JArr.toList, ih]

@[simp] theorem JObj.toList_ofList_obj (l : List (String × JValue)) :
    (JObj.ofList l).toList = l := by
  induction l with
  | nil => rfl
  | cons kv t ih => obtain ⟨k, v⟩ := kv; simp [JObj.ofList, JObj.toList, ih]

/-- Tests whether `needle` occurs as a contiguous run of `hay` (Python `needle in s` on
strings, character-list form). -/
def charsContains (needle : List Char) : List Char → Bool
  | [] => needle.isEmpty
  | c :: rest => needle.isPrefixOf (c :: rest) || charsContains needle rest

/-- Python `needle in s` for strings. -/
def strContains (s needle : String) : Bool :=
  charsContains needle.toList s.toList

/-- Python truthiness (`bool(v)`) for the dynamic values of the model. -/
def jTruthy : JValue → Bool
  | .null => false
  | .bool b => b
  | .num q => q ≠ 0
  | .str s => s ≠ ""
  | .arr xs => !xs.toList.isEmpty
  | .obj fs => !fs.toList.isEmpty

/-- Python `k in v` for the shapes that occur in the working set: key
membership for dicts, substring for strings, element membership for lists.
(Other truthy shapes raise `TypeError` in Python; no working-set value
produced by the code has such a shape.) -/
def jContainsStr (v : JValue) (k : String) : Bool :=
  match v with
  | .obj fs => fs.toList.any (fun p => p.1 == k)
  | .str s => strContains s k
  | .arr xs => xs.toList.any (fun x => x == JValue.str k)
  | _ => false

/-- Dict lookup `v[k]` for object values (first binding; CPython dicts have
unique keys).  `none` corresponds to Python raising `KeyError`/`TypeError`;
the code only indexes keys it has just tested with `in`. -/
def jGet (v : JValue) (k : String) : Option JValue :=
  match v with
  | .obj fs => (fs.toList.find? (fun p => p.1 == k)).map (fun p => p.2)
  | _ => none

/-- Numeric content of a dynamic value; a non-numeric operand of Python `+`
or `>` would raise `TypeError`, a shape the tool fixtures never produce. -/
def jNum : JValue → ℚ
  | .num q => q
  | _ => 0

/-- String content of a dynamic value (the code only calls string methods on
values that are strings in every produced working set). -/
def jStr : JValue → String
  | .str s => s
  | _ => ""

/-- CPython `d[k] = v` on an insertion-ordered dict: replace in place if the
key exists, else append. -/
def dictSet (d : List (String × JValue)) (k : String) (v : JValue) :
    List (String × JValue) :=
  if d.any (fun p => p.1 == k) then
    d.map (fun p => if p.1 == k then (k, v) else p)
  else d ++ [(k, v)]

/-- CPython `d.update(u)`. -/
def dictUpdate (d u : List (String × JValue)) : List (String × JValue) :=
  u.foldl (fun acc p => dictSet acc p.1 p.2) d

/-- The working set: `Dict[str, Any]` of intermediate results. -/
abbrev WorkingSet := List (String × JValue)

/-! ## Data model (`backend/app/agent/state.py`) -/

/-- The `ConstraintType` enum. -/
inductive ConstraintType where
  | budget | dates | airports | preferences | weather
deriving DecidableEq

/-- The `Constraint` pydantic model. -/
structure Constraint where
  type : ConstraintType
  value : JValue
  is_hard : Bool := true
deriving DecidableEq

/-- The `ToolCall` pydantic model (the audit-trail record).  `timestamp` is the
`datetime.now()` instant in seconds.  Note: the model has *no* cached
flag. -/
structure ToolCall where
  tool_name : String
  args : List (String × JValue)
  result : Option JValue := none
  duration_ms : Option Int := none
  error : Option String := none
  timestamp : ℚ
deriving DecidableEq

/-- The `Violation` pydantic model. -/
structure Violation where
  constraint_type : ConstraintType
  description : String
  severity : String
  suggested_fix : Option String := none
deriving DecidableEq

/-- The `BudgetCounter` pydantic model. -/
structure BudgetCounter where
  flights : ℚ := 0
  lodging : ℚ := 0
  activities : ℚ := 0
  transport : ℚ := 0
  food : ℚ := 0
  total : ℚ := 0
  currency : String := "USD"
deriving DecidableEq

/-- The `PlanStep` pydantic model. -/
structure PlanStep where
  id : String
  tool_name : String
  args : List (String × JValue)
  dependencies : List String := []
  estimated_cost : Option ℚ := none
  estimated_duration_ms : Option Int := none
  status : String := "pending"
deriving DecidableEq

/-! ## Scheduler (`backend/app/agent/router.py`, `Router.__call__`) -/

/-- One iteration of the dependency check inside `Router.__call__`:
`next((s for s in plan if s.id == dep_id), None)` followed by the status
test.  The `None` default means a dangling id yields `False` (the step is
simply not selected) rather than an exception. -/
def depSatisfied (plan : List PlanStep) (dep_id : String) : Bool :=
  match plan.find? (fun s => s.id == dep_id) with
  | some dep_step => dep_step.status == "completed"
  | none => false

/-- The `Router.__call__` readiness test for a single step: status is
`"pending"` and every dependency id resolves to a `"completed"` step.
Statuses are read before any step is marked running (the source collects
`executable_steps` in full before the mutation loop). -/
def stepReady (plan : List PlanStep) (step : PlanStep) : Bool :=
  step.status == "pending" && step.dependencies.all (depSatisfied plan)

/-- Embedding of `Router.__call__`: returns the plan with every ready step marked
`"running"` in place, together with the list of selected steps (the
`executable_steps` payload, whose members are the same mutated step
objects, hence already `"running"`). -/
def routerCall (plan : List PlanStep) : List PlanStep × List PlanStep :=
  let executable_steps := plan.filter (stepReady plan)
  (plan.map (fun s => if stepReady plan s then { s with status := "running" } else s),
   executable_steps.map (fun s => { s with status := "running" }))

/-- Spec-side readiness: pending, and every dependency id names a completed
step of the plan. -/
def readySpec (plan : List PlanStep) (s : PlanStep) : Prop :=
  s.status = "pending" ∧
    ∀ d ∈ s.dependencies, ∃ t ∈ plan, t.id = d ∧ t.status = "completed"

instance (plan : List PlanStep) (s : PlanStep) : Decidable (readySpec plan s) := by
  unfold readySpec; infer_instance

/-! ## Control-loop decisions (`backend/app/agent/graph.py`) -/

/-- The graph-state fields read by the control-loop decision functions. -/
structure GraphState where
  plan : List PlanStep
  violations : List Violation

/-- Embedding of `_is_repair_needed`: `"repair"` iff `state["violations"]` is truthy
(non-empty). -/
def isRepairNeeded (state : GraphState) : String :=
  if !state.violations.isEmpty then "repair" else "continue"

/-- Embedding of `_should_synthesize`: back to `"plan"` while any step is pending or
running; `"synthesize"` once every step is completed or failed and there
are no violations; otherwise `"plan"`. -/
def shouldSynthesize (state : GraphState) : String :=
  if state.plan.any (fun step => step.status == "pending" || step.status == "running") then
    "plan"
  else if state.plan.all (fun step => step.status == "completed" || step.status == "failed")
      && state.violations.isEmpty then
    "synthesize"
  else
    "plan"

/-- The label map of `add_conditional_edges("verify", _is_repair_needed, …)`
in `TravelAgentGraph.__init__`: `"repair" ↦ "repair"`,
`"continue" ↦ "synthesis_decision"`. -/
def verifyEdgeMap (label : String) : String :=
  if label == "repair" then "repair" else "synthesis_decision"

/-- The routing lambda of `add_conditional_edges("synthesis_decision", …)`:
`lambda x: "synthesize" if x.get("should_synthesize", False) else "plan"`.
Its argument is the value of the graph-state key `"should_synthesize"`, if
present (`x.get` with default `False`). -/
def synthesisDecisionLambda (should_synthesize_entry : Option JValue) : String :=
  if jTruthy (should_synthesize_entry.getD (JValue.bool false)) then "synthesize" else "plan"

/-- The state keys that can appear in a node's returned update dict, node by
node, transcribed from every `return` statement of the node callables wired
in `TravelAgentGraph.__init__` (`nodes.py`, `planner.py`, `router.py`,
`tool_executor.py`, `verifier.py`, `repair.py`, `synthesizer.py`,
`responder.py`), together with the keys of the `AgentState` TypedDict
itself (`state.py`) — `RepairReplan.__call__` returns the whole input state
when there are no violations, and the initial state passed to the compiled
graph (`api/agent.py`) is built from exactly the `AgentState` keys.  The
`synthesis_decision` node (`_should_synthesize`) returns a string, not a
dict, so it contributes no key. -/
def graphWrittenKeys : List String :=
  [ -- AgentState TypedDict keys (state.py)
   "messages", "constraints", "plan", "working_set", "citations", "tool_calls",
   "violations", "budget_counters", "done", "trace_id", "user_id", "org_id",
   "current_step", "progress_events", "error", "retry_count",
   "final_itinerary", "final_markdown",
   -- extra keys appearing in node return dicts
   "executable_steps",       -- Router.__call__
   "tools_used", "decisions" -- Responder.__call__
  ]

/-! ## Verifier (`backend/app/agent/verifier.py`) -/

/-- Python `f"{x:.2f}"` for the `float`-as-`ℚ` model: fixed two decimals.
(Python rounds the underlying double to even at exact half-cent ties;
`round` here rounds half away from zero — no value produced by the code
sits on a half-cent tie, so the renderings agree on everything the
claims exercise.) -/
def formatFixed2 (q : ℚ) : String :=
  let cents : ℤ := round (q * 100)
  let sign := if cents < 0 then "-" else ""
  let a := cents.natAbs
  let frac := a % 100
  sign ++ toString (a / 100) ++ "." ++ (if frac < 10 then "0" else "") ++ toString frac

/-- Rendering of a working-set scalar inside an f-string (`str(v)`): exact
for strings — the only shape the tool fixtures put into the interpolated
fields — with a fixed fallback rendering elsewhere. -/
def pyStr : JValue → String
  | .str s => s
  | .num q => formatFixed2 q
  | .bool b => if b then "True" else "False"
  | .null => "None"
  | _ => ""

/-- Elements of an array-shaped dynamic value (Python `for x in v`; the code
only iterates values whose key it has just tested, and the fixtures store
lists there). -/
def jItems : JValue → List JValue
  | .arr xs => xs.toList
  | _ => []

/-- Applies `jItems` to an optional lookup result. -/
def jArrD (o : Option JValue) : List JValue :=
  jItems (o.getD .null)

/-- Numeric field access `f[k]` (`KeyError` on a missing key in Python;
the fixtures always populate the fields read here). -/
def jGetNum (f : JValue) (k : String) : ℚ :=
  jNum ((jGet f k).getD .null)

/-- Truthiness of the field `f[k]`. -/
def jGetTruthy (f : JValue) (k : String) : Bool :=
  jTruthy ((jGet f k).getD .null)

/-- String field access `f[k]`. -/
def jGetStr (f : JValue) (k : String) : String :=
  jStr ((jGet f k).getD .null)

/-- The key/value filter of the flights-cost loop in
`Verifier._check_budget`:
`"flights" in key and "output" in key and value and "flights" in value`. -/
def flightsEntry (kv : String × JValue) : Bool :=
  strContains kv.1 "flights" && strContains kv.1 "output"
    && jTruthy kv.2 && jContainsStr kv.2 "flights"

/-- The `total_cost` accumulation of `_check_budget`: sum of
`flight["price_usd"]` over every flights entry of the working set. -/
def flightsCost (ws : WorkingSet) : ℚ :=
  ws.foldl (fun acc kv =>
    if flightsEntry kv then
      acc + ((jArrD (jGet kv.2 "flights")).map (fun f => jGetNum f "price_usd")).sum
    else acc) 0

/-- The key/value filter of the lodging-cost loop:
`"lodging" in key and "output" in key and value and "lodgings" in value`. -/
def lodgingEntry (kv : String × JValue) : Bool :=
  strContains kv.1 "lodging" && strContains kv.1 "output"
    && jTruthy kv.2 && jContainsStr kv.2 "lodgings"

/-- The `lodging_cost` accumulation of `_check_budget`. -/
def lodgingCost (ws : WorkingSet) : ℚ :=
  ws.foldl (fun acc kv =>
    if lodgingEntry kv then
      acc + ((jArrD (jGet kv.2 "lodgings")).map (fun l => jGetNum l "total_price")).sum
    else acc) 0

/-- The message of the budget violation
(`f"Total estimated cost ({total:.2f} USD) exceeds budget limit ({limit:.2f} USD)."`). -/
def budgetViolationMsg (total limit : ℚ) : String :=
  "Total estimated cost (" ++ formatFixed2 total
    ++ " USD) exceeds budget limit (" ++ formatFixed2 limit ++ " USD)."

/-- The first budget constraint's payload:
`next((c.value for c in constraints if c.type == ConstraintType.BUDGET), None)`. -/
def firstBudgetValue (constraints : List Constraint) : JValue :=
  ((constraints.find? (fun c => c.type == ConstraintType.budget)).map Constraint.value).getD .null

/-- Embedding of `Verifier._check_budget`, returning the violations it appends and the
updated counters.  A falsy limit (no budget constraint, `None`, or `0`)
returns immediately and leaves the counters untouched. -/
def checkBudget (constraints : List Constraint) (ws : WorkingSet) (bc : BudgetCounter) :
    List Violation × BudgetCounter :=
  let budget_limit := firstBudgetValue constraints
  if !jTruthy budget_limit then ([], bc)
  else
    let bc1 := { bc with flights := flightsCost ws }
    let bc2 := { bc1 with lodging := lodgingCost ws }
    let bc3 := { bc2 with
      total := bc2.flights + bc2.lodging + bc2.activities + bc2.transport + bc2.food }
    if bc3.total > jNum budget_limit then
      ([{ constraint_type := .budget,
          description := budgetViolationMsg bc3.total (jNum budget_limit),
          severity := "critical",
          suggested_fix := some "Consider cheaper flights, lodging, or fewer activities." }],
       bc3)
    else ([], bc3)

/-- A decimal digit's value. -/
def digitVal (c : Char) : Option ℕ :=
  if c.isDigit then some (c.toNat - 48) else none

/-- The date part of `datetime.fromisoformat`: the leading `YYYY-MM-DD` of
the timestamp string (`none` where Python would raise `ValueError`; the
flights fixture always emits well-formed ISO timestamps). -/
def parseIsoDate (s : String) : Option (ℕ × ℕ × ℕ) :=
  match s.toList with
  | y1 :: y2 :: y3 :: y4 :: '-' :: m1 :: m2 :: '-' :: d1 :: d2 :: _ => do
    let a ← digitVal y1
    let b ← digitVal y2
    let c ← digitVal y3
    let d ← digitVal y4
    let e ← digitVal m1
    let f ← digitVal m2
    let g ← digitVal d1
    let h ← digitVal d2
    pure (a * 1000 + b * 100 + c * 10 + d, e * 10 + f, g * 10 + h)
  | _ => none

/-- Day ordinal of a (CE) civil date, monotone in calendar order;
`datetime.date` comparison and `timedelta(days=1)` addition are modelled
through it. -/
def dateOrdinal : ℕ × ℕ × ℕ → ℕ
  | (y, m, d) =>
    let y' := if m ≤ 2 then y - 1 else y
    let era := y' / 400
    let yoe := y' % 400
    let mp := (m + 9) % 12
    let doy := (153 * mp + 2) / 5 + (d - 1)
    era * 146097 + yoe * 365 + yoe / 4 - yoe / 100 + doy

/-- The `avoid_overnight` flag of `_check_feasibility`:
some preference constraint has payload `"Avoid overnight flights"`. -/
def avoidOvernight (constraints : List Constraint) : Bool :=
  constraints.any (fun c =>
    c.type == ConstraintType.preferences && c.value == JValue.str "Avoid overnight flights")

/-- Tests `arrival.date() > departure.date() + timedelta(days=1)` for one flight
dict. -/
def flightOvernight (f : JValue) : Bool :=
  match parseIsoDate (jGetStr f "departure_time"),
        parseIsoDate (jGetStr f "arrival_time") with
  | some dep, some arr => dateOrdinal arr > dateOrdinal dep + 1
  | _, _ => false

/-- The warning emitted for an overnight flight. -/
def overnightViolation (f : JValue) : Violation :=
  { constraint_type := .preferences,
    description := "Flight " ++ pyStr ((jGet f "flight_number").getD .null)
      ++ " is an overnight flight, which user prefers to avoid.",
    severity := "warning",
    suggested_fix := some "Search for alternative flights or adjust travel dates." }

/-- Embedding of `Verifier._check_feasibility` (the violations it appends). -/
def checkFeasibility (constraints : List Constraint) (ws : WorkingSet) : List Violation :=
  if avoidOvernight constraints then
    ws.foldl (fun acc kv =>
      if flightsEntry kv then
        acc ++ ((jArrD (jGet kv.2 "flights")).filter flightOvernight).map overnightViolation
      else acc) []
  else []

/-- The key/value filter of the weather scan:
`"weather" in key and "output" in key and value and "daily_forecast" in value`. -/
def weatherEntry (kv : String × JValue) : Bool :=
  strContains kv.1 "weather" && strContains kv.1 "output"
    && jTruthy kv.2 && jContainsStr kv.2 "daily_forecast"

/-- The `weather_forecast` variable of `_check_weather_sensitivity` (first
matching entry, `break` afterwards). -/
def firstWeatherForecast (ws : WorkingSet) : Option JValue :=
  (ws.find? weatherEntry).map (fun kv => (jGet kv.2 "daily_forecast").getD .null)

/-- The info violation for one rainy forecast day. -/
def rainViolation (day : JValue) : Violation :=
  { constraint_type := .weather,
    description := "Rain expected on " ++ pyStr ((jGet day "date").getD .null)
      ++ ". Consider swapping outdoor activities for indoor ones.",
    severity := "info",
    suggested_fix := some "Identify outdoor activities on this day and find indoor alternatives." }

/-- Embedding of `Verifier._check_weather_sensitivity` (the violations it appends);
its `constraints` parameter is unused in the source as well. -/
def checkWeather (ws : WorkingSet) : List Violation :=
  match firstWeatherForecast ws with
  | some forecast =>
    if jTruthy forecast then
      ((jItems forecast).filter (fun day => jGetTruthy day "is_rainy")).map rainViolation
    else []
  | none => []

/-- Embeds `preferences = [c.value for c in constraints if c.type == PREFERENCES]`,
keeping the string payloads (every preference the extractor emits is a
string; `p.lower()` would raise on anything else). -/
def preferenceStrings (constraints : List Constraint) : List String :=
  (constraints.filter (fun c => c.type == ConstraintType.preferences)).filterMap
    (fun c => match c.value with | .str s => some s | _ => none)

/-- The `kid_friendly_pref` flag of `_check_preferences`. -/
def kidFriendlyPref (constraints : List Constraint) : Bool :=
  (preferenceStrings constraints).any (fun p =>
    strContains p.toLower "toddler-friendly" || strContains p.toLower "kid-friendly")

/-- The key/value filter of the events scans:
`"events" in key and "output" in key and value and "events" in value`. -/
def eventsEntry (kv : String × JValue) : Bool :=
  strContains kv.1 "events" && strContains kv.1 "output"
    && jTruthy kv.2 && jContainsStr kv.2 "events"

/-- The `found_kid_friendly` flag (the double loop with `break`s computes
exactly this existential). -/
def foundKidFriendly (ws : WorkingSet) : Bool :=
  ws.any (fun kv => eventsEntry kv
    && (jArrD (jGet kv.2 "events")).any (fun e => jGetTruthy e "kid_friendly"))

/-- The `museum_pref` flag. -/
def museumPref (constraints : List Constraint) : Bool :=
  (preferenceStrings constraints).any (fun p => strContains p.toLower "museum")

/-- Tests `"museum" in event["category"].lower() or "museum" in event["name"].lower()`. -/
def eventIsMuseum (e : JValue) : Bool :=
  strContains (jGetStr e "category").toLower "museum"
    || strContains (jGetStr e "name").toLower "museum"

/-- The `found_museum` flag. -/
def foundMuseum (ws : WorkingSet) : Bool :=
  ws.any (fun kv => eventsEntry kv && (jArrD (jGet kv.2 "events")).any eventIsMuseum)

/-- The warning emitted when kid-friendly activities are wanted but absent. -/
def kidFriendlyViolation : Violation :=
  { constraint_type := .preferences,
    description := "No kid-friendly activities found, but user prefers them.",
    severity := "warning",
    suggested_fix := some "Search for kid-friendly events or attractions." }

/-- The warning emitted when museums are wanted but absent. -/
def museumViolation : Violation :=
  { constraint_type := .preferences,
    description := "No museums found, but user prefers them.",
    severity := "warning",
    suggested_fix := some "Search for museums in the destination." }

/-- Embedding of `Verifier._check_preferences` (the violations it appends). -/
def checkPreferences (constraints : List Constraint) (ws : WorkingSet) : List Violation :=
  (if kidFriendlyPref constraints && !foundKidFriendly ws then [kidFriendlyViolation] else [])
    ++ (if museumPref constraints && !foundMuseum ws then [museumViolation] else [])

/-- Embedding of `Verifier.__call__`: the four checks run in order over a fresh
violations list and the incoming counters; the returned dict
`{violations, budget_counters, working_set}` is modelled as a triple.  The
working set is only read, never written, and is passed through as-is. -/
def verifierCall (constraints : List Constraint) (ws : WorkingSet) (bc : BudgetCounter) :
    List Violation × BudgetCounter × WorkingSet :=
  let budget := checkBudget constraints ws bc
  (budget.1 ++ checkFeasibility constraints ws ++ checkWeather ws
     ++ checkPreferences constraints ws,
   budget.2, ws)

/-! ## Repair (`backend/app/agent/repair.py`) -/

/-- The `RepairSuggestion` pydantic model (one patch operation proposed by the
LLM). -/
structure RepairSuggestion where
  step_id : String
  action : String
  new_args : Option (List (String × JValue)) := none
  new_step : Option PlanStep := none
  reasoning : String := ""

/-- The `RepairPlanOutput` pydantic model (the LLM's structured response). -/
structure RepairPlanOutput where
  suggestions : List RepairSuggestion
  overall_reasoning : String

/-- Python truthiness of the optional `new_args` dict (`if suggestion.new_args:`
is `False` for `None` and for an empty dict). -/
def optDictTruthy : Option (List (String × JValue)) → Bool
  | some l => !l.isEmpty
  | none => false

/-- The `modify` branch of `RepairReplan.__call__`: the first step whose id
matches gets `new_args` merged into its args (skipped when `new_args` is
falsy) and its status reset to `"pending"`; the loop `break`s there. -/
def modifyFirst (plan : List PlanStep) (sid : String)
    (na : Option (List (String × JValue))) : List PlanStep :=
  match plan with
  | [] => []
  | s :: rest =>
    if s.id == sid then
      { s with
        args := if optDictTruthy na then dictUpdate s.args (na.getD []) else s.args,
        status := "pending" } :: rest
    else s :: modifyFirst rest sid na

/-- One iteration of the suggestion loop of `RepairReplan.__call__`
(dispatch on the `action` string; an unrecognized action falls through and
leaves the plan unchanged). -/
def applySuggestion (plan : List PlanStep) (s : RepairSuggestion) : List PlanStep :=
  if s.action == "modify" then modifyFirst plan s.step_id s.new_args
  else if s.action == "remove" then plan.filter (fun st => !(st.id == s.step_id))
  else if s.action == "add" then
    match s.new_step with
    | some st => plan ++ [st]   -- a pydantic PlanStep object is always truthy
    | none => plan
  else plan

/-- Embedding of `RepairReplan.__call__` with the LLM call abstracted into its structured
`response`.  With no violations the input state is returned unchanged;
otherwise every suggestion is applied in order, the violations are cleared
unconditionally, and the repair reasoning is recorded in the working
set. -/
def repairCall (plan : List PlanStep) (violations : List Violation) (ws : WorkingSet)
    (response : RepairPlanOutput) : List PlanStep × List Violation × WorkingSet :=
  if violations.isEmpty then (plan, violations, ws)
  else
    (response.suggestions.foldl applySuggestion plan,
     [],
     dictSet ws "repair_reasoning" (JValue.str response.overall_reasoning))

/-! ## Tool invoker (`backend/app/tools/base.py`) -/

/-- The `ToolOutput` pydantic model. -/
structure ToolOutput where
  success : Bool := true
  data : Option JValue := none
  error : Option String := none
  cached : Bool := false
  duration_ms : Option Int := none
deriving DecidableEq

/-- Stable insertion of a rendered field into a key-sorted list. -/
def insertByKey (p : String × String) : List (String × String) → List (String × String)
  | [] => [p]
  | q :: t => if p.1 < q.1 then p :: q :: t else q :: insertByKey p t

/-- Key-sort of rendered fields (Python `sort_keys=True`; dict keys are
unique, so stability is immaterial). -/
def sortByKey (l : List (String × String)) : List (String × String) :=
  l.foldr insertByKey []

/-- JSON string rendering (quotes and escapes). -/
def strSer (s : String) : String :=
  "\"" ++ String.mk (s.toList.foldr
    (fun c acc => if c = '"' || c = '\\' then '\\' :: c :: acc else c :: acc) []) ++ "\""

/-- Deterministic rendering of a number.  `json.dumps` spells Python ints
and floats differently; only *equality* of serializations feeds the cache
key, so any injective rendering is a faithful model. -/
def ratSer (q : ℚ) : String :=
  toString q.num ++ (if q.den = 1 then "" else "/" ++ toString q.den)

/-- Comma-joined rendering of serialized elements. -/
def sepJoin : List String → String
  | [] => ""
  | [s] => s
  | s :: t => s ++ ", " ++ sepJoin t

mutual
/-- Embeds `json.dumps(·, sort_keys=True)`: canonical serialization with
recursively sorted object keys. -/
def jSerialize : JValue → String
  | .null => "null"
  | .bool b => if b then "true" else "false"
  | .num q => ratSer q
  | .str s => strSer s
  | .arr xs => "[" ++ sepJoin (serArr xs) ++ "]"
  | .obj fs => "\x7b" ++ sepJoin ((sortByKey (serObj fs)).map
      (fun p => strSer p.1 ++ ": " ++ p.2)) ++ "\x7d"
/-- Serialized elements of an array. -/
def serArr : JArr → List String
  | .nil => []
  | .cons v t => jSerialize v :: serArr t
/-- Fields of an object with serialized values (sorted afterwards). -/
def serObj : JObj → List (String × String)
  | .nil => []
  | .cons k v t => (k, jSerialize v) :: serObj t
end

/-- Embedding of `BaseTool._get_cache_key`: canonical sorted-keys serialization of the
input dict.  The source hashes the serialization with `md5`; the hash is a
deterministic function of the serialization, so equal canonical
serializations give equal cache keys — the only property the cache path
relies on (a hash collision could only turn a miss into a hit, and no claim
quantifies over colliding inputs). -/
def getCacheKey (input_data : List (String × JValue)) : String :=
  jSerialize (.obj (JObj.ofList input_data))

/-- The per-tool-instance cache `self._cache : Dict[str, (result, timestamp)]`
(timestamps in seconds). -/
abbrev Cache := List (String × ToolOutput × ℚ)

/-- Dict lookup in the cache. -/
def cacheLookup (cache : Cache) (key : String) : Option (ToolOutput × ℚ) :=
  (cache.find? (fun e => e.1 == key)).map (fun e => e.2)

/-- Embedding of `BaseTool._cache_result` / in-place entry replacement. -/
def cacheStore (cache : Cache) (key : String) (v : ToolOutput × ℚ) : Cache :=
  if cache.any (fun e => e.1 == key) then
    cache.map (fun e => if e.1 == key then (key, v) else e)
  else cache ++ [(key, v)]

/-- Embeds `del self._cache[cache_key]`. -/
def cacheErase (cache : Cache) (key : String) : Cache :=
  cache.filter (fun e => !(e.1 == key))

/-- Embeds `self._cache_ttl = timedelta(minutes=15)`, in seconds. -/
def cacheTTL : ℚ := 900

/-- Embedding of `BaseTool._get_cached_result` at instant `now`: a hit younger than the
TTL is returned with `cached` set to `True` (the assignment mutates the
stored object in place, so the store is updated too); an expired entry is
evicted. -/
def getCachedResult (cache : Cache) (key : String) (now : ℚ) :
    Option ToolOutput × Cache :=
  match cacheLookup cache key with
  | some (result, ts) =>
    if now - ts < cacheTTL then
      (some { result with cached := true },
       cacheStore cache key ({ result with cached := true }, ts))
    else (none, cacheErase cache key)
  | none => (none, cache)

/-- The per-tool ingredients of `BaseTool.execute`: `validate` models
`self.get_input_schema()(**input_data)` (pydantic validation, abstract in
the base class), and `execRun i` the outcome of the `i`-th call to the
abstract `_execute` within one invocation (`.error e` models a raised
exception with `str(e) = e`). -/
structure ToolBehavior where
  validate : List (String × JValue) → Except String Unit
  execRun : ℕ → Except String ToolOutput

/-- The retry loop `for attempt in range(max_retries + 1)` of
`BaseTool.execute`, at attempt number `attempt` with `remaining` further
attempts allowed after this one (the loop's `attempt < max_retries` retry
guard is exactly `remaining > 0`): yields the outcome of the last attempt
made (`.ok` as soon as `_execute` returns, `.error` carrying `last_error`
once every attempt raised), the number of `_execute` calls made, and the
jitter sleeps performed between attempts (`rng i` models the
`random.uniform(0.1, 0.5)` draw after failed attempt `i`, in seconds). -/
def attemptLoop (tb : ToolBehavior) (rng : ℕ → ℚ) (attempt remaining : ℕ) :
    Except String ToolOutput × ℕ × List ℚ :=
  match tb.execRun attempt with
  | .ok r => (.ok r, 1, [])
  | .error e =>
    match remaining with
    | 0 => (.error e, 1, [])
    | rem + 1 =>
      let rest := attemptLoop tb rng (attempt + 1) rem
      (rest.1, rest.2.1 + 1, rng attempt :: rest.2.2)

/-- Embedding of `BaseTool.execute` with the wall clock abstracted: `now` is the
`datetime.now()` instant of the invocation and `elapsedMs` the measured
`int((time.time() - start_time) * 1000)` the code writes into
`duration_ms`.  Returns the `ToolOutput`, the cache after the call, the
number of times the underlying `_execute` ran, and the jitter sleeps
performed. -/
def execute (tb : ToolBehavior) (cache : Cache) (input_data : List (String × JValue))
    (max_retries : ℕ) (now : ℚ) (elapsedMs : ℤ) (rng : ℕ → ℚ) :
    ToolOutput × Cache × ℕ × List ℚ :=
  let cache_key := getCacheKey input_data
  let looked := getCachedResult cache cache_key now
  match looked.1 with
  | some cached_result => (cached_result, looked.2, 0, [])
  | none =>
    match tb.validate input_data with
    | .error e =>
      ({ success := false, error := some ("Input validation failed: " ++ e),
         duration_ms := some elapsedMs }, looked.2, 0, [])
    | .ok _ =>
      match attemptLoop tb rng 0 max_retries with
      | (.ok r, n, sleeps) =>
        let result := { r with duration_ms := some elapsedMs }
        if result.success then
          (result, cacheStore looked.2 cache_key (result, now), n, sleeps)
        else (result, looked.2, n, sleeps)
      | (.error last_error, n, sleeps) =>
        ({ success := false,
           error := some ("Tool execution failed after " ++ toString (max_retries + 1)
             ++ " attempts: " ++ last_error),
           duration_ms := some elapsedMs }, looked.2, n, sleeps)

/-! ## Executor (`backend/app/agent/tool_executor.py`) -/

/-- The `ToolCall(...)` record appended by `ToolExecutor.__call__` for one
executed step (`timestamp` is the record's `datetime.now()` creation
instant, shared here across one batch). -/
def mkToolCall (step : PlanStep) (out : ToolOutput) (now : ℚ) : ToolCall :=
  { tool_name := step.tool_name, args := step.args, result := out.data,
    duration_ms := out.duration_ms, error := out.error, timestamp := now }

/-- Embedding of `ToolExecutor.__call__` with the gathered per-step results abstracted as
`outcomes` (each entry models `await tool.execute(step.args, max_retries=1)`
for that step).  Collects the `"running"` steps, appends one `ToolCall`
record per such step, marks each step `"completed"`/`"failed"` by
`success`, and records the data or error in the working set.  With no
running steps the node returns `{}` (no update). -/
def toolExecutorCall (plan : List PlanStep) (ws : WorkingSet) (tool_calls : List ToolCall)
    (outcomes : PlanStep → ToolOutput) (now : ℚ) :
    List PlanStep × List ToolCall × WorkingSet :=
  let steps_to_execute := plan.filter (fun st => st.status == "running")
  if steps_to_execute.isEmpty then (plan, tool_calls, ws)
  else
    (plan.map (fun st =>
       if st.status == "running" then
         if (outcomes st).success then { st with status := "completed" }
         else { st with status := "failed" }
       else st),
     tool_calls ++ steps_to_execute.map (fun st => mkToolCall st (outcomes st) now),
     steps_to_execute.foldl (fun acc st =>
       let o := outcomes st
       if o.success then
         dictSet acc (st.tool_name ++ "_" ++ st.id ++ "_output") (o.data.getD .null)
       else
         dictSet acc (st.tool_name ++ "_" ++ st.id ++ "_error")
           (match o.error with | some e => .str e | none => .null)) ws)

/-! ## Sample states and runs used by the claim theorems -/

/-- A sample critical violation. -/
def sampleViolation : Violation :=
  { constraint_type := .budget, description := "Total estimated cost exceeds budget limit.",
    severity := "critical" }

/-- A graph state with every step terminal and no violations — the
synthesis-ready situation. -/
def c1DoneState : GraphState :=
  { plan := [{ id := "s1", tool_name := "flights", args := [], status := "completed" },
             { id := "s2", tool_name := "lodging", args := [], dependencies := ["s1"],
               status := "failed" }],
    violations := [] }

/-- A graph state with a pending step. -/
def c1PendingState : GraphState :=
  { plan := [{ id := "s1", tool_name := "flights", args := [], status := "pending" }],
    violations := [] }

/-- A graph state with a violation. -/
def c1ViolState : GraphState :=
  { plan := [{ id := "s1", tool_name := "flights", args := [], status := "completed" }],
    violations := [sampleViolation] }

/-! ## Claim theorems -/

/-- Claim C1: The decision functions behave as the claim says: `_is_repair_needed`
routes `Verify` to `Repair` exactly on a non-empty violations list (its edge
map sending `"continue"` to the synthesis-readiness node), and
`_should_synthesize` answers `"plan"` while steps are pending/running and
`"synthesize"` when every step is terminal with no violations.  But the
conditional edge wired out of `synthesis_decision` in
`TravelAgentGraph.__init__` consults the state key `"should_synthesize"`,
which no node of the graph ever writes (`graphWrittenKeys` is exhaustive),
so its `x.get(…, False)` always sees the default and the compiled graph
routes the synthesis decision to `"plan"` unconditionally: the loop can
never proceed to synthesis through this edge, contradicting the claimed
routing. -/
theorem graph_synthesis_decision_wiring_bug :
    isRepairNeeded c1ViolState = "repair"
    ∧ verifyEdgeMap (isRepairNeeded c1ViolState) = "repair"
    ∧ isRepairNeeded c1DoneState = "continue"
    ∧ verifyEdgeMap (isRepairNeeded c1DoneState) = "synthesis_decision"
    ∧ shouldSynthesize c1PendingState = "plan"
    ∧ shouldSynthesize c1DoneState = "synthesize"
    ∧ graphWrittenKeys.all (fun k => !(k == "should_synthesize")) = true
    ∧ synthesisDecisionLambda none = "plan" := by
  decide

/-- With id-unique plans, the code's readiness test coincides with the
spec-side one. -/
theorem stepReady_iff_readySpec (plan : List PlanStep)
    (hids : (plan.map PlanStep.id).Nodup) (s : PlanStep) :
    stepReady plan s = true ↔ readySpec plan s := by
  unfold stepReady readySpec
  rw [Bool.and_eq_true, beq_iff_eq, List.all_eq_true]
  constructor
  · rintro ⟨hpend, hdeps⟩
    refine ⟨hpend, fun d hd => ?_⟩
    have h := hdeps d hd
    unfold depSatisfied at h
    rcases hfind : plan.find? (fun t => t.id == d) with _ | t
    · rw [hfind] at h; exact absurd h (by simp)
    · rw [hfind] at h
      refine ⟨t, List.mem_of_find?_eq_some hfind, ?_, by simpa using h⟩
      simpa using List.find?_some hfind
  · rintro ⟨hpend, hdeps⟩
    refine ⟨hpend, fun d hd => ?_⟩
    obtain ⟨t, htmem, htid, htstat⟩ := hdeps d hd
    unfold depSatisfied
    have hsome : (plan.find? (fun u => u.id == d)).isSome := by
      rw [List.find?_isSome]
      exact ⟨t, htmem, by simpa using htid⟩
    rcases hfind : plan.find? (fun u => u.id == d) with _ | u
    · rw [hfind] at hsome; simp at hsome
    · have humem := List.mem_of_find?_eq_some hfind
      have huid : u.id = d := by simpa using List.find?_some hfind
      have : u = t := List.inj_on_of_nodup_map hids humem htmem (huid.trans htid.symm)
      rw [hfind]
      simp [this, htstat]

/-- Claim C2: `Router.__call__` marks `"running"` exactly the steps that are
`"pending"` with every dependency id resolving to a `"completed"` step of
the (id-unique) plan, returns exactly those steps as `executable_steps`,
and a step with a dangling dependency id is never selected: its readiness
test is `False` (the `next(…, None)` default makes this a normal return,
not an exception) and it keeps its `"pending"` status. -/
theorem router_selects_exactly_ready (plan : List PlanStep)
    (hids : (plan.map PlanStep.id).Nodup) :
    (routerCall plan).1 =
      plan.map (fun s => if readySpec plan s then { s with status := "running" } else s)
    ∧ (routerCall plan).2 =
      (plan.filter (fun s => decide (readySpec plan s))).map
        (fun s => { s with status := "running" })
    ∧ ∀ s ∈ plan, (∃ d ∈ s.dependencies, ∀ t ∈ plan, t.id ≠ d) →
        stepReady plan s = false
        ∧ (if readySpec plan s then { s with status := "running" } else s) = s := by
  have hdangling : ∀ s ∈ plan, (∃ d ∈ s.dependencies, ∀ t ∈ plan, t.id ≠ d) →
      ¬ readySpec plan s := by
    rintro s _ ⟨d, hd, hnone⟩ ⟨_, hdeps⟩
    obtain ⟨t, htmem, htid, _⟩ := hdeps d hd
    exact hnone t htmem htid
  refine ⟨?_, ?_, ?_⟩
  · show plan.map _ = plan.map _
    refine List.map_congr_left (fun s hs => ?_)
    by_cases h : readySpec plan s
    · rw [if_pos ((stepReady_iff_readySpec plan hids s).mpr h), if_pos h]
    · rw [if_neg (fun hb => h ((stepReady_iff_readySpec plan hids s).mp hb)), if_neg h]
  · show (plan.filter _).map _ = (plan.filter _).map _
    have : plan.filter (stepReady plan) = plan.filter (fun s => decide (readySpec plan s)) := by
      refine List.filter_congr (fun s hs => ?_)
      by_cases h : readySpec plan s
      · simp [h, (stepReady_iff_readySpec plan hids s).mpr h]
      · have : stepReady plan s ≠ true := fun hb => h ((stepReady_iff_readySpec plan hids s).mp hb)
        simp [h, Bool.eq_false_iff.mpr this]
    rw [this]
  · intro s hs hdang
    have hns := hdangling s hs hdang
    refine ⟨?_, if_neg hns⟩
    exact Bool.eq_false_iff.mpr (fun hb => hns ((stepReady_iff_readySpec plan hids s).mp hb))

/-- The sample plan of the router witness: `b` is ready (its dependency is
completed), `c` has a dangling dependency id, `d` waits on a pending
step. -/
def c2Plan : List PlanStep :=
  [{ id := "a", tool_name := "flights", args := [], status := "completed" },
   { id := "b", tool_name := "lodging", args := [], dependencies := ["a"], status := "pending" },
   { id := "c", tool_name := "events", args := [], dependencies := ["ghost"], status := "pending" },
   { id := "d", tool_name := "transit", args := [], dependencies := ["b"], status := "pending" }]

/-- Witness for C2 at `c2Plan`. -/
theorem router_selects_exactly_ready_witness :
    (c2Plan.map PlanStep.id).Nodup
    ∧ ((routerCall c2Plan).1 =
        c2Plan.map (fun s => if readySpec c2Plan s then { s with status := "running" } else s)
      ∧ (routerCall c2Plan).2 =
        (c2Plan.filter (fun s => decide (readySpec c2Plan s))).map
          (fun s => { s with status := "running" })
      ∧ ∀ s ∈ c2Plan, (∃ d ∈ s.dependencies, ∀ t ∈ c2Plan, t.id ≠ d) →
          stepReady c2Plan s = false
          ∧ (if readySpec c2Plan s then { s with status := "running" } else s) = s) :=
  ⟨by decide, router_selects_exactly_ready c2Plan (by decide)⟩

/-! ### Verifier helper lemmas -/

/-- The counters produced by one budget pass, in closed form: flights and
lodging recomputed from the working set, the three remaining categories
taken from the incoming counters, the total summed from those five. -/
def recomputedCounters (ws : WorkingSet) (bc : BudgetCounter) : BudgetCounter :=
  { bc with
    flights := flightsCost ws
    lodging := lodgingCost ws
    total := flightsCost ws + lodgingCost ws + bc.activities + bc.transport + bc.food }

/-- The budget-violation record emitted on an exceeded limit. -/
def budgetViolation (total limit : ℚ) : Violation :=
  { constraint_type := .budget,
    description := budgetViolationMsg total limit,
    severity := "critical",
    suggested_fix := some "Consider cheaper flights, lodging, or fewer activities." }

/-- Closed form of `Verifier._check_budget`. -/
theorem checkBudget_eq (c : List Constraint) (ws : WorkingSet) (bc : BudgetCounter) :
    checkBudget c ws bc =
      if jTruthy (firstBudgetValue c) then
        ((if (recomputedCounters ws bc).total > jNum (firstBudgetValue c) then
            [budgetViolation (recomputedCounters ws bc).total (jNum (firstBudgetValue c))]
          else []),
         recomputedCounters ws bc)
      else ([], bc) := by
  unfold checkBudget recomputedCounters budgetViolation
  by_cases h : jTruthy (firstBudgetValue c) <;> simp [h]
  split <;> rfl

/-- One budget pass is idempotent on the counters: recomputing from the same
working set starting from already-recomputed counters changes nothing. -/
theorem recomputedCounters_idem (ws : WorkingSet) (bc : BudgetCounter) :
    recomputedCounters ws (recomputedCounters ws bc) = recomputedCounters ws bc := by
  cases bc
  rfl

/-- Running `_check_budget` twice over the same constraints and working set
gives the same violations and the same counters. -/
theorem checkBudget_idem (c : List Constraint) (ws : WorkingSet) (bc : BudgetCounter) :
    checkBudget c ws (checkBudget c ws bc).2 = checkBudget c ws bc := by
  by_cases h : jTruthy (firstBudgetValue c)
  · rw [checkBudget_eq c ws bc, if_pos h, checkBudget_eq, if_pos h]
    rw [show ((if (recomputedCounters ws bc).total > jNum (firstBudgetValue c) then
        [budgetViolation (recomputedCounters ws bc).total (jNum (firstBudgetValue c))]
      else []), recomputedCounters ws bc).2 = recomputedCounters ws bc from rfl]
    rw [recomputedCounters_idem]
  · rw [checkBudget_eq c ws bc, if_neg h, checkBudget_eq, if_neg h]

/-- Membership in an accumulating fold of conditional appends. -/
theorem mem_foldl_cond_append {α β : Type} (f : β → List α) (p : β → Bool) (l : List β)
    (acc : List α) (v : α)
    (hv : v ∈ l.foldl (fun a kv => if p kv then a ++ f kv else a) acc) :
    v ∈ acc ∨ ∃ kv ∈ l, v ∈ f kv := by
  induction l generalizing acc with
  | nil => exact Or.inl hv
  | cons kv t ih =>
    simp only [List.foldl] at hv
    rcases ih _ hv with h | ⟨kv', hkv', hvf⟩
    · by_cases hp : p kv
      · rw [if_pos hp] at h
        rcases List.mem_append.mp h with h | h
        · exact Or.inl h
        · exact Or.inr ⟨kv, List.mem_cons_self kv t, h⟩
      · rw [if_neg hp] at h
        exact Or.inl h
    · exact Or.inr ⟨kv', List.mem_cons_of_mem _ hkv', hvf⟩

/-- Every feasibility violation is preference-typed. -/
theorem checkFeasibility_types (c : List Constraint) (ws : WorkingSet) :
    ∀ v ∈ checkFeasibility c ws, v.constraint_type = ConstraintType.preferences := by
  intro v hv
  unfold checkFeasibility at hv
  by_cases h : avoidOvernight c
  · rw [if_pos h] at hv
    rcases mem_foldl_cond_append _ _ _ _ _ hv with h' | ⟨kv, _, h'⟩
    · simp at h'
    · obtain ⟨f, _, rfl⟩ := List.mem_map.mp h'
      rfl
  · rw [if_neg h] at hv
    simp at hv

/-- Every weather violation is weather-typed. -/
theorem checkWeather_types (ws : WorkingSet) :
    ∀ v ∈ checkWeather ws, v.constraint_type = ConstraintType.weather := by
  intro v hv
  unfold checkWeather at hv
  rcases hfc : firstWeatherForecast ws with _ | forecast
  · rw [hfc] at hv; simp at hv
  · rw [hfc] at hv
    have hv' : v ∈ (if jTruthy forecast then
        ((jItems forecast).filter (fun day => jGetTruthy day "is_rainy")).map rainViolation
      else []) := hv
    split at hv'
    · obtain ⟨day, _, rfl⟩ := List.mem_map.mp hv'
      rfl
    · simp at hv'

/-- Every preference-fit violation is preference-typed. -/
theorem checkPreferences_types (c : List Constraint) (ws : WorkingSet) :
    ∀ v ∈ checkPreferences c ws, v.constraint_type = ConstraintType.preferences := by
  intro v hv
  unfold checkPreferences at hv
  rcases List.mem_append.mp hv with h | h
  · split at h
    · rw [List.mem_singleton] at h; subst h; rfl
    · simp at h
  · split at h
    · rw [List.mem_singleton] at h; subst h; rfl
    · simp at h

/-- The budget-typed violations of a full `Verifier.__call__` pass are
exactly those of `_check_budget`. -/
theorem verifierCall_budget_filter (c : List Constraint) (ws : WorkingSet) (bc : BudgetCounter) :
    (verifierCall c ws bc).1.filter
        (fun v => v.constraint_type == ConstraintType.budget) =
      (checkBudget c ws bc).1 := by
  show ((checkBudget c ws bc).1 ++ checkFeasibility c ws ++ checkWeather ws
      ++ checkPreferences c ws).filter _ = _
  rw [List.filter_append, List.filter_append, List.filter_append]
  have h1 : (checkFeasibility c ws).filter
      (fun v => v.constraint_type == ConstraintType.budget) = [] := by
    rw [List.filter_eq_nil_iff]
    intro v hv
    simp [checkFeasibility_types c ws v hv]
  have h2 : (checkWeather ws).filter
      (fun v => v.constraint_type == ConstraintType.budget) = [] := by
    rw [List.filter_eq_nil_iff]
    intro v hv
    simp [checkWeather_types ws v hv]
  have h3 : (checkPreferences c ws).filter
      (fun v => v.constraint_type == ConstraintType.budget) = [] := by
    rw [List.filter_eq_nil_iff]
    intro v hv
    simp [checkPreferences_types c ws v hv]
  have h0 : (checkBudget c ws bc).1.filter
      (fun v => v.constraint_type == ConstraintType.budget) = (checkBudget c ws bc).1 := by
    rw [checkBudget_eq]
    by_cases h : jTruthy (firstBudgetValue c)
    · rw [if_pos h]
      split <;> simp [budgetViolation]
    · rw [if_neg h]
      simp
  rw [h0, h1, h2, h3, List.append_nil, List.append_nil, List.append_nil]

/-- Claim C7: `Verifier.__call__` is idempotent and pure: a second pass over
the unchanged constraint list and working set returns identical violations
and identical budget counters — even though the counters it receives are
the ones updated by the first pass — and the working set is passed through
untouched (the checks only read it).  Determinism is inherited by the
embedding: the source consults no clock, randomness or ambient state in
this node. -/
theorem verify_idempotent_pure (c : List Constraint) (ws : WorkingSet) (bc : BudgetCounter) :
    verifierCall c ws (verifierCall c ws bc).2.1 = verifierCall c ws bc
    ∧ (verifierCall c ws bc).2.2 = ws := by
  constructor
  · show verifierCall c ws (checkBudget c ws bc).2 = _
    unfold verifierCall
    rw [checkBudget_idem]
  · rfl

/-- The budget scenario constraint list: one hard budget of $2000. -/
def c4Constraints : List Constraint := [{ type := .budget, value := .num 2000 }]

/-- The budget scenario working set: one flights result costing $1200 and
one lodging result costing $900, keyed the way `ToolExecutor` stores tool
outputs. -/
def c4WorkingSet : WorkingSet :=
  [("flights_step_1_output",
     .obj (JObj.ofList [("flights", .arr (JArr.ofList
       [.obj (JObj.ofList [("flight_number", .str "NH006"), ("price_usd", .num 1200)])]))])),
   ("lodging_step_2_output",
     .obj (JObj.ofList [("lodgings", .arr (JArr.ofList
       [.obj (JObj.ofList [("name", .str "Kyoto Inn"), ("total_price", .num 900)])]))]))]

/-- Claim C4: With a budget constraint of (truthy) limit `L`, a verifier pass
sums the flight `price_usd` and lodging `total_price` entries of the
working set into the counters, and its budget-typed violations are exactly
one critical violation — carrying the computed total and the limit (hence
the overage) in its message — when the total exceeds `L`, and none
otherwise.  At the spec scenario (limit $2000, flight $1200, lodging $900)
the computed total is $2100, exactly one critical budget violation is
emitted, and the overage is $100. -/
theorem verifier_budget_violation (c : List Constraint) (ws : WorkingSet) (bc : BudgetCounter)
    (L : ℚ) (hL : firstBudgetValue c = JValue.num L) (hL0 : L ≠ 0) :
    ((verifierCall c ws bc).2.1.flights = flightsCost ws
      ∧ (verifierCall c ws bc).2.1.lodging = lodgingCost ws
      ∧ (verifierCall c ws bc).2.1.total =
          flightsCost ws + lodgingCost ws + bc.activities + bc.transport + bc.food)
    ∧ ((verifierCall c ws bc).1.filter (fun v => v.constraint_type == ConstraintType.budget) =
        if (verifierCall c ws bc).2.1.total > L then
          [budgetViolation (verifierCall c ws bc).2.1.total L]
        else [])
    ∧ ((verifierCall c4Constraints c4WorkingSet {}).2.1.total = 2100
      ∧ (verifierCall c4Constraints c4WorkingSet {}).1 = [budgetViolation 2100 2000]
      ∧ (verifierCall c4Constraints c4WorkingSet {}).2.1.total
          - jNum (firstBudgetValue c4Constraints) = 100) := by
  have htr : jTruthy (firstBudgetValue c) = true := by
    rw [hL]; simp [jTruthy, hL0]
  have hbc : (verifierCall c ws bc).2.1 = recomputedCounters ws bc := by
    show (checkBudget c ws bc).2 = _
    rw [checkBudget_eq, if_pos htr]
  refine ⟨⟨?_, ?_, ?_⟩, ?_, ?_, ?_, ?_⟩
  · rw [hbc]; rfl
  · rw [hbc]; rfl
  · rw [hbc]; rfl
  · rw [verifierCall_budget_filter, checkBudget_eq, if_pos htr, hbc, hL]
    rfl
  · with_unfolding_all decide
  · with_unfolding_all decide
  · with_unfolding_all decide

/-- Witness for C4 at the spec scenario ($2000 limit, $1200 flight, $900
lodging). -/
theorem verifier_budget_violation_witness :
    firstBudgetValue c4Constraints = JValue.num 2000
    ∧ (2000 : ℚ) ≠ 0
    ∧ (((verifierCall c4Constraints c4WorkingSet {}).2.1.flights = flightsCost c4WorkingSet
        ∧ (verifierCall c4Constraints c4WorkingSet {}).2.1.lodging = lodgingCost c4WorkingSet
        ∧ (verifierCall c4Constraints c4WorkingSet {}).2.1.total =
            flightsCost c4WorkingSet + lodgingCost c4WorkingSet
              + (BudgetCounter.activities {}) + (BudgetCounter.transport {})
              + (BudgetCounter.food {}))
      ∧ ((verifierCall c4Constraints c4WorkingSet {}).1.filter
            (fun v => v.constraint_type == ConstraintType.budget) =
          if (verifierCall c4Constraints c4WorkingSet {}).2.1.total > 2000 then
            [budgetViolation (verifierCall c4Constraints c4WorkingSet {}).2.1.total 2000]
          else [])
      ∧ ((verifierCall c4Constraints c4WorkingSet {}).2.1.total = 2100
        ∧ (verifierCall c4Constraints c4WorkingSet {}).1 = [budgetViolation 2100 2000]
        ∧ (verifierCall c4Constraints c4WorkingSet {}).2.1.total
            - jNum (firstBudgetValue c4Constraints) = 100)) :=
  ⟨by with_unfolding_all decide, by norm_num,
   verifier_budget_violation c4Constraints c4WorkingSet {} 2000
     (by with_unfolding_all decide) (by norm_num)⟩

/-- The C8 probe constraints: one budget constraint of $2000. -/
def c8Constraints : List Constraint := [{ type := .budget, value := .num 2000 }]

/-- Incoming counters carrying a non-zero `activities` value. -/
def c8IncomingCounters : BudgetCounter := { activities := 5 }

/-- Claim C8, counterexample: The counters returned by a verifier pass are
*not* determined by the working-set snapshot alone: over the same
constraints and the same (empty) working set, incoming counters with
`activities = 5` and with `activities = 0` produce different outputs —
`activities` is passed through rather than recomputed, and `total` sums it
in. -/
theorem budget_counters_incoming_dependence_counterexample :
    (verifierCall c8Constraints [] c8IncomingCounters).2.1.activities = 5
    ∧ (verifierCall c8Constraints [] {}).2.1.activities = 0
    ∧ (verifierCall c8Constraints [] c8IncomingCounters).2.1.total = 5
    ∧ (verifierCall c8Constraints [] {}).2.1.total = 0
    ∧ (verifierCall c8Constraints [] c8IncomingCounters).2.1
        ≠ (verifierCall c8Constraints [] {}).2.1 := by
  with_unfolding_all decide

/-- Claim C8, amended: On a verifier pass under a truthy budget constraint,
the `flights` and `lodging` counters are recomputed in full from the
current working set; `activities`, `transport`, `food` and `currency` are
passed through from the incoming counters; and `total` is the sum of the
two recomputed and the three passed-through categories (so it depends on
the incoming counters as well). -/
theorem budget_counters_recompute_amended (c : List Constraint) (ws : WorkingSet)
    (bc : BudgetCounter) (h : jTruthy (firstBudgetValue c) = true) :
    (verifierCall c ws bc).2.1.flights = flightsCost ws
    ∧ (verifierCall c ws bc).2.1.lodging = lodgingCost ws
    ∧ (verifierCall c ws bc).2.1.activities = bc.activities
    ∧ (verifierCall c ws bc).2.1.transport = bc.transport
    ∧ (verifierCall c ws bc).2.1.food = bc.food
    ∧ (verifierCall c ws bc).2.1.currency = bc.currency
    ∧ (verifierCall c ws bc).2.1.total =
        flightsCost ws + lodgingCost ws + bc.activities + bc.transport + bc.food := by
  have hbc : (verifierCall c ws bc).2.1 = recomputedCounters ws bc := by
    show (checkBudget c ws bc).2 = _
    rw [checkBudget_eq, if_pos h]
  rw [hbc]
  exact ⟨rfl, rfl, rfl, rfl, rfl, rfl, rfl⟩

/-- Witness for the amended C8 at the probe instance. -/
theorem budget_counters_recompute_amended_witness :
    jTruthy (firstBudgetValue c8Constraints) = true
    ∧ ((verifierCall c8Constraints [] c8IncomingCounters).2.1.flights = flightsCost []
      ∧ (verifierCall c8Constraints [] c8IncomingCounters).2.1.lodging = lodgingCost []
      ∧ (verifierCall c8Constraints [] c8IncomingCounters).2.1.activities
          = c8IncomingCounters.activities
      ∧ (verifierCall c8Constraints [] c8IncomingCounters).2.1.transport
          = c8IncomingCounters.transport
      ∧ (verifierCall c8Constraints [] c8IncomingCounters).2.1.food
          = c8IncomingCounters.food
      ∧ (verifierCall c8Constraints [] c8IncomingCounters).2.1.currency
          = c8IncomingCounters.currency
      ∧ (verifierCall c8Constraints [] c8IncomingCounters).2.1.total =
          flightsCost [] + lodgingCost [] + c8IncomingCounters.activities
            + c8IncomingCounters.transport + c8IncomingCounters.food) :=
  ⟨by with_unfolding_all decide,
   budget_counters_recompute_amended c8Constraints [] c8IncomingCounters
     (by with_unfolding_all decide)⟩

/-- The C10 probe: a budget constraint whose value is the falsy limit `0`,
against a working set holding a large flight cost. -/
def c10Constraints : List Constraint := [{ type := .budget, value := .num 0 }]

/-- Working set with a $999999 flight. -/
def c10WorkingSet : WorkingSet :=
  [("flights_step_1_output",
     .obj (JObj.ofList [("flights", .arr (JArr.ofList
       [.obj (JObj.ofList [("price_usd", .num 999999)])]))]))]

/-- Claim C10: When the first budget constraint's value is falsy (limit `0`,
`None`, or no budget constraint at all), the verifier skips the budget
check entirely: the counters are returned exactly as they came in and no
budget-typed violation is emitted, whatever costs the working set
contains. -/
theorem budget_check_skipped_on_falsy_limit (c : List Constraint) (ws : WorkingSet)
    (bc : BudgetCounter) (h : jTruthy (firstBudgetValue c) = false) :
    (verifierCall c ws bc).2.1 = bc
    ∧ ∀ v ∈ (verifierCall c ws bc).1, v.constraint_type ≠ ConstraintType.budget := by
  have hskip : checkBudget c ws bc = ([], bc) := by
    rw [checkBudget_eq, if_neg (by simp [h])]
  constructor
  · show (checkBudget c ws bc).2 = bc
    rw [hskip]
  · intro v hv
    have hv' : v ∈ (checkBudget c ws bc).1 ++ checkFeasibility c ws ++ checkWeather ws
        ++ checkPreferences c ws := hv
    rw [hskip] at hv'
    simp only [List.nil_append, List.append_assoc, List.mem_append] at hv'
    rcases hv' with h' | h' | h'
    · rw [checkFeasibility_types c ws v h']
      intro hc; cases hc
    · rw [checkWeather_types ws v h']
      intro hc; cases hc
    · rw [checkPreferences_types c ws v h']
      intro hc; cases hc

/-- Witness for C10: limit `0`, a $999999 flight in the working set — the
counters stay at their defaults and no budget violation appears. -/
theorem budget_check_skipped_on_falsy_limit_witness :
    jTruthy (firstBudgetValue c10Constraints) = false
    ∧ ((verifierCall c10Constraints c10WorkingSet {}).2.1 = {}
      ∧ ∀ v ∈ (verifierCall c10Constraints c10WorkingSet {}).1,
          v.constraint_type ≠ ConstraintType.budget) :=
  ⟨by with_unfolding_all decide,
   budget_check_skipped_on_falsy_limit c10Constraints c10WorkingSet {}
     (by with_unfolding_all decide)⟩

/-! ### Tool-invoker lemmas -/

/-- Retry-loop step: an attempt whose `_execute` returns ends the loop. -/
theorem attemptLoop_ok (tb : ToolBehavior) (rng : ℕ → ℚ) (a rem : ℕ) (r : ToolOutput)
    (h : tb.execRun a = .ok r) :
    attemptLoop tb rng a rem = (.ok r, 1, []) := by
  unfold attemptLoop
  rw [h]

/-- Retry-loop step: a raising attempt with no retries left surfaces the
error. -/
theorem attemptLoop_err_zero (tb : ToolBehavior) (rng : ℕ → ℚ) (a : ℕ) (e : String)
    (h : tb.execRun a = .error e) :
    attemptLoop tb rng a 0 = (.error e, 1, []) := by
  unfold attemptLoop
  rw [h]

/-- Retry-loop step: a raising attempt with retries left sleeps a jitter
draw and retries. -/
theorem attemptLoop_err_succ (tb : ToolBehavior) (rng : ℕ → ℚ) (a rem : ℕ) (e : String)
    (h : tb.execRun a = .error e) :
    attemptLoop tb rng a (rem + 1) =
      ((attemptLoop tb rng (a + 1) rem).1,
       (attemptLoop tb rng (a + 1) rem).2.1 + 1,
       rng a :: (attemptLoop tb rng (a + 1) rem).2.2) := by
  conv_lhs => unfold attemptLoop
  rw [h]

/-- The retry loop makes at most `remaining + 1` `_execute` calls. -/
theorem attemptLoop_runs_le (tb : ToolBehavior) (rng : ℕ → ℚ) :
    ∀ remaining attempt : ℕ, (attemptLoop tb rng attempt remaining).2.1 ≤ remaining + 1 := by
  intro remaining
  induction remaining with
  | zero =>
    intro a
    rcases h : tb.execRun a with e | r
    · simp [attemptLoop_err_zero tb rng a e h]
    · simp [attemptLoop_ok tb rng a 0 r h]
  | succ rem ih =>
    intro a
    rcases h : tb.execRun a with e | r
    · rw [attemptLoop_err_succ tb rng a rem e h]
      have := ih (a + 1)
      simp only []
      omega
    · simp [attemptLoop_ok tb rng a (rem + 1) r h]

/-- Every sleep performed by the retry loop is one of the `rng` draws. -/
theorem attemptLoop_sleeps_draws (tb : ToolBehavior) (rng : ℕ → ℚ) :
    ∀ remaining attempt : ℕ,
      ∀ s ∈ (attemptLoop tb rng attempt remaining).2.2, ∃ i, s = rng i := by
  intro remaining
  induction remaining with
  | zero =>
    intro a s hs
    rcases h : tb.execRun a with e | r
    · rw [attemptLoop_err_zero tb rng a e h] at hs
      simp at hs
    · rw [attemptLoop_ok tb rng a 0 r h] at hs
      simp at hs
  | succ rem ih =>
    intro a s hs
    rcases h : tb.execRun a with e | r
    · rw [attemptLoop_err_succ tb rng a rem e h] at hs
      rcases List.mem_cons.mp hs with rfl | hs'
      · exact ⟨a, rfl⟩
      · exact ih (a + 1) s hs'
    · rw [attemptLoop_ok tb rng a (rem + 1) r h] at hs
      simp at hs

/-- When every attempt in range raises, the retry loop returns the error of
the last attempt, makes one `_execute` call per attempt, and sleeps one
jitter draw between consecutive attempts. -/
theorem attemptLoop_exhausted (tb : ToolBehavior) (rng : ℕ → ℚ) :
    ∀ remaining attempt : ℕ,
    (∀ i, attempt ≤ i → i ≤ attempt + remaining → ∃ e, tb.execRun i = .error e) →
    ∃ e, tb.execRun (attempt + remaining) = .error e
      ∧ attemptLoop tb rng attempt remaining =
          (.error e, remaining + 1, (List.range' attempt remaining).map rng) := by
  intro remaining
  induction remaining with
  | zero =>
    intro a hfail
    obtain ⟨e, he⟩ := hfail a le_rfl (by omega)
    exact ⟨e, by simpa using he, by rw [attemptLoop_err_zero tb rng a e he]; simp⟩
  | succ rem ih =>
    intro a hfail
    obtain ⟨e0, he0⟩ := hfail a le_rfl (by omega)
    obtain ⟨e, he, hrec⟩ := ih (a + 1) (fun i h1 h2 => hfail i (by omega) (by omega))
    refine ⟨e, ?_, ?_⟩
    · rw [show a + (rem + 1) = a + 1 + rem by omega]
      exact he
    · rw [attemptLoop_err_succ tb rng a rem e0 he0, hrec]
      simp [List.range']

/-- A never-looked-up key means `_get_cached_result` is a miss that leaves
the cache unchanged. -/
theorem getCachedResult_none (cache : Cache) (key : String) (now : ℚ)
    (h : cacheLookup cache key = none) :
    getCachedResult cache key now = (none, cache) := by
  unfold getCachedResult
  rw [h]

/-- Looking up a key just stored finds exactly the stored entry. -/
theorem cacheLookup_cacheStore_self (cache : Cache) (k : String) (v : ToolOutput × ℚ) :
    cacheLookup (cacheStore cache k v) k = some v := by
  unfold cacheStore
  by_cases h : cache.any (fun e => e.1 == k)
  · rw [if_pos h]
    induction cache with
    | nil => simp at h
    | cons e t ih =>
      by_cases he : e.1 == k
      · unfold cacheLookup
        simp [List.find?, he]
      · have ht : t.any (fun e => e.1 == k) := by
          rcases List.any_eq_true.mp h with ⟨x, hx, hb⟩
          rcases List.mem_cons.mp hx with rfl | hx'
          · exact absurd hb (by simpa using he)
          · exact List.any_eq_true.mpr ⟨x, hx', hb⟩
        have := ih ht
        unfold cacheLookup at this ⊢
        simpa [List.find?, he] using this
  · rw [if_neg h]
    unfold cacheLookup
    have hnone : cache.find? (fun e => e.1 == k) = none := by
      rw [List.find?_eq_none]
      intro x hx hb
      exact h (List.any_eq_true.mpr ⟨x, hx, hb⟩)
    induction cache with
    | nil => simp [List.find?]
    | cons e t ih =>
      have he : (e.1 == k) = false := by
        have := List.find?_eq_none.mp hnone e (List.mem_cons_self e t)
        simpa using this
      have ht : t.find? (fun x => x.1 == k) = none := by
        rw [List.find?_eq_none]
        intro x hx hb
        exact List.find?_eq_none.mp hnone x (List.mem_cons_of_mem e hx) hb
      have harg : ¬ t.any (fun e => e.1 == k) := by
        intro hany
        rcases List.any_eq_true.mp hany with ⟨x, hx, hb⟩
        exact (List.find?_eq_none.mp ht x hx) hb
      have := ih harg ht
      simpa [List.find?, he] using this

/-- Evaluating `execute` on a cache miss that passes validation runs the retry loop
(closed form). -/
theorem execute_miss_valid_eq (tb : ToolBehavior) (cache : Cache)
    (input : List (String × JValue)) (mr : ℕ) (now : ℚ) (elapsed : ℤ) (rng : ℕ → ℚ)
    (hmiss : (getCachedResult cache (getCacheKey input) now).1 = none)
    (hvalid : tb.validate input = .ok ()) :
    execute tb cache input mr now elapsed rng =
      match attemptLoop tb rng 0 mr with
      | (.ok r, n, sleeps) =>
        if ({ r with duration_ms := some elapsed } : ToolOutput).success then
          ({ r with duration_ms := some elapsed },
           cacheStore (getCachedResult cache (getCacheKey input) now).2 (getCacheKey input)
             ({ r with duration_ms := some elapsed }, now), n, sleeps)
        else ({ r with duration_ms := some elapsed },
              (getCachedResult cache (getCacheKey input) now).2, n, sleeps)
      | (.error last_error, n, sleeps) =>
        ({ success := false,
           error := some ("Tool execution failed after " ++ toString (mr + 1)
             ++ " attempts: " ++ last_error),
           duration_ms := some elapsed },
         (getCachedResult cache (getCacheKey input) now).2, n, sleeps) := by
  unfold execute
  simp only [hmiss, hvalid]

/-- Whatever the cache and tool, one invocation runs `_execute` at most
`max_retries + 1` times. -/
theorem execute_runs_le (tb : ToolBehavior) (cache : Cache)
    (input : List (String × JValue)) (mr : ℕ) (now : ℚ) (elapsed : ℤ) (rng : ℕ → ℚ) :
    (execute tb cache input mr now elapsed rng).2.2.1 ≤ mr + 1 := by
  unfold execute
  rcases hc : (getCachedResult cache (getCacheKey input) now).1 with _ | r
  · simp only [hc]
    rcases hv : tb.validate input with e | u
    · simp
    · simp only []
      have hle := attemptLoop_runs_le tb rng mr 0
      rcases hal : attemptLoop tb rng 0 mr with ⟨res, n, sleeps⟩
      rw [hal] at hle
      rcases res with e | r

      · simpa using hle
      · simp only []
        split <;> simpa using hle
  · simp [hc]

/-- Evaluating `execute` on a young-enough cache hit returns the stored result marked
`cached=true`, without validating or running anything. -/
theorem execute_hit (tb : ToolBehavior) (cache : Cache) (input : List (String × JValue))
    (mr : ℕ) (now : ℚ) (elapsed : ℤ) (rng : ℕ → ℚ) (r : ToolOutput) (ts : ℚ)
    (hhit : cacheLookup cache (getCacheKey input) = some (r, ts))
    (httl : now - ts < cacheTTL) :
    execute tb cache input mr now elapsed rng =
      ({ r with cached := true },
       cacheStore cache (getCacheKey input) ({ r with cached := true }, ts), 0, []) := by
  have hres : getCachedResult cache (getCacheKey input) now =
      (some { r with cached := true },
       cacheStore cache (getCacheKey input) ({ r with cached := true }, ts)) := by
    unfold getCachedResult
    rw [hhit]
    simp [httl]
  unfold execute
  simp only [hres]

/-- The miss path when the retry loop ends in a returned output. -/
theorem execute_miss_valid_ok (tb : ToolBehavior) (cache : Cache)
    (input : List (String × JValue)) (mr : ℕ) (now : ℚ) (elapsed : ℤ) (rng : ℕ → ℚ)
    (hmiss : (getCachedResult cache (getCacheKey input) now).1 = none)
    (hvalid : tb.validate input = .ok ()) (r : ToolOutput) (n : ℕ) (sleeps : List ℚ)
    (hal : attemptLoop tb rng 0 mr = (.ok r, n, sleeps)) :
    execute tb cache input mr now elapsed rng =
      if ({ r with duration_ms := some elapsed } : ToolOutput).success then
        ({ r with duration_ms := some elapsed },
         cacheStore (getCachedResult cache (getCacheKey input) now).2 (getCacheKey input)
           ({ r with duration_ms := some elapsed }, now), n, sleeps)
      else ({ r with duration_ms := some elapsed },
            (getCachedResult cache (getCacheKey input) now).2, n, sleeps) := by
  rw [execute_miss_valid_eq tb cache input mr now elapsed rng hmiss hvalid, hal]

/-- The miss path when every retry raised. -/
theorem execute_miss_valid_err (tb : ToolBehavior) (cache : Cache)
    (input : List (String × JValue)) (mr : ℕ) (now : ℚ) (elapsed : ℤ) (rng : ℕ → ℚ)
    (hmiss : (getCachedResult cache (getCacheKey input) now).1 = none)
    (hvalid : tb.validate input = .ok ()) (e : String) (n : ℕ) (sleeps : List ℚ)
    (hal : attemptLoop tb rng 0 mr = (.error e, n, sleeps)) :
    execute tb cache input mr now elapsed rng =
      ({ success := false,
         error := some ("Tool execution failed after " ++ toString (mr + 1)
           ++ " attempts: " ++ e),
         duration_ms := some elapsed },
       (getCachedResult cache (getCacheKey input) now).2, n, sleeps) := by
  rw [execute_miss_valid_eq tb cache input mr now elapsed rng hmiss hvalid, hal]

/-- A successful invocation on a fresh key stores its own result at the
invocation instant. -/
theorem execute_fresh_success_stores (tb : ToolBehavior) (cache : Cache)
    (input : List (String × JValue)) (mr : ℕ) (now : ℚ) (elapsed : ℤ) (rng : ℕ → ℚ)
    (hfresh : cacheLookup cache (getCacheKey input) = none)
    (hsucc : (execute tb cache input mr now elapsed rng).1.success = true) :
    (execute tb cache input mr now elapsed rng).2.1 =
      cacheStore cache (getCacheKey input)
        ((execute tb cache input mr now elapsed rng).1, now) := by
  have hmiss := getCachedResult_none cache (getCacheKey input) now hfresh
  rcases hv : tb.validate input with ev | u
  · have hfalse : (execute tb cache input mr now elapsed rng).1.success = false := by
      unfold execute
      simp only [hmiss, hv]
    rw [hfalse] at hsucc
    cases hsucc
  · cases u
    rcases hal : attemptLoop tb rng 0 mr with ⟨res, n, sleeps⟩
    rcases res with e | r
    · have heq := execute_miss_valid_err tb cache input mr now elapsed rng
        (by rw [hmiss]) hv e n sleeps hal
      rw [heq] at hsucc
      cases hsucc
    · have heq := execute_miss_valid_ok tb cache input mr now elapsed rng
        (by rw [hmiss]) hv r n sleeps hal
      rw [hmiss] at heq
      by_cases hs : ({ r with duration_ms := some elapsed } : ToolOutput).success
      · rw [heq, if_pos hs]
      · rw [heq, if_neg hs] at hsucc
        exact absurd hsucc (by simpa using hs)

/-- The jitter arguments: `c5Rng` draws a constant quarter second. -/
def c5Rng : ℕ → ℚ := fun _ => 1/4

/-- A tool whose `_execute` raises on every attempt. -/
def c5Tool : ToolBehavior :=
  { validate := fun _ => .ok (), execRun := fun _ => .error "boom" }

/-- The args of the C5 witness invocation. -/
def c5Args : List (String × JValue) := [("city", .str "Kyoto")]

/-- Claim C5: On a cache miss that passes input validation, `execute`
attempts the underlying `_execute` up to `max_retries + 1` times (the bound
holds for every tool and every loop start); when every attempt raises, it
makes exactly `max_retries + 1` runs, sleeps exactly one
`random.uniform(0.1, 0.5)`-second draw — between 100 ms and 500 ms — after
each failed attempt but the last, and returns `success=false` with the last
error wrapped together with the attempt count. -/
theorem execute_retry_exhaustion (tb : ToolBehavior) (cache : Cache)
    (input : List (String × JValue)) (mr : ℕ) (now : ℚ) (elapsed : ℤ) (rng : ℕ → ℚ)
    (hmiss : (getCachedResult cache (getCacheKey input) now).1 = none)
    (hvalid : tb.validate input = .ok ())
    (hrng : ∀ i, (1 : ℚ)/10 ≤ rng i ∧ rng i ≤ 1/2)
    (hfail : ∀ i, i ≤ mr → ∃ e, tb.execRun i = .error e) :
    (∀ (tb' : ToolBehavior) (rng' : ℕ → ℚ) (mr' a' : ℕ),
        (attemptLoop tb' rng' a' mr').2.1 ≤ mr' + 1)
    ∧ (execute tb cache input mr now elapsed rng).2.2.1 = mr + 1
    ∧ (execute tb cache input mr now elapsed rng).2.2.2 = (List.range' 0 mr).map rng
    ∧ (execute tb cache input mr now elapsed rng).2.2.2.length = mr
    ∧ (∀ s ∈ (execute tb cache input mr now elapsed rng).2.2.2,
        (1 : ℚ)/10 ≤ s ∧ s ≤ 1/2)
    ∧ (∃ e, tb.execRun mr = .error e
        ∧ (execute tb cache input mr now elapsed rng).1 =
            { success := false,
              error := some ("Tool execution failed after " ++ toString (mr + 1)
                ++ " attempts: " ++ e),
              duration_ms := some elapsed }) := by
  obtain ⟨e, he, hloop⟩ :=
    attemptLoop_exhausted tb rng mr 0 (fun i _ h2 => hfail i (by omega))
  have heq := execute_miss_valid_err tb cache input mr now elapsed rng hmiss hvalid
    e (mr + 1) ((List.range' 0 mr).map rng) (by simpa using hloop)
  refine ⟨fun tb' rng' mr' a' => attemptLoop_runs_le tb' rng' mr' a', ?_, ?_, ?_, ?_, ?_⟩
  · rw [heq]
  · rw [heq]
  · rw [heq]
    simp
  · intro s hs
    rw [heq] at hs
    simp only [] at hs
    obtain ⟨i, _, rfl⟩ := List.mem_map.mp hs
    exact hrng i
  · exact ⟨e, by simpa using he, by rw [heq]⟩

/-- Witness for C5: a fresh cache, a validating tool raising `"boom"` on
every attempt, `max_retries = 1`. -/
theorem execute_retry_exhaustion_witness :
    (getCachedResult [] (getCacheKey c5Args) 0).1 = none
    ∧ c5Tool.validate c5Args = .ok ()
    ∧ (∀ i, (1 : ℚ)/10 ≤ c5Rng i ∧ c5Rng i ≤ 1/2)
    ∧ (∀ i, i ≤ 1 → ∃ e, c5Tool.execRun i = .error e)
    ∧ ((∀ (tb' : ToolBehavior) (rng' : ℕ → ℚ) (mr' a' : ℕ),
          (attemptLoop tb' rng' a' mr').2.1 ≤ mr' + 1)
      ∧ (execute c5Tool [] c5Args 1 0 7 c5Rng).2.2.1 = 1 + 1
      ∧ (execute c5Tool [] c5Args 1 0 7 c5Rng).2.2.2 = (List.range' 0 1).map c5Rng
      ∧ (execute c5Tool [] c5Args 1 0 7 c5Rng).2.2.2.length = 1
      ∧ (∀ s ∈ (execute c5Tool [] c5Args 1 0 7 c5Rng).2.2.2,
          (1 : ℚ)/10 ≤ s ∧ s ≤ 1/2)
      ∧ (∃ e, c5Tool.execRun 1 = .error e
          ∧ (execute c5Tool [] c5Args 1 0 7 c5Rng).1 =
              { success := false,
                error := some ("Tool execution failed after " ++ toString (1 + 1)
                  ++ " attempts: " ++ e),
                duration_ms := some 7 })) :=
  ⟨by with_unfolding_all decide, rfl, fun i => by norm_num [c5Rng],
   fun i _ => ⟨"boom", rfl⟩,
   execute_retry_exhaustion c5Tool [] c5Args 1 0 7 c5Rng
     (by with_unfolding_all decide) rfl (fun i => by norm_num [c5Rng])
     (fun i _ => ⟨"boom", rfl⟩)⟩

/-- Claim C3, amended: For two invocations against the same tool instance with
canonically-equal args (equal sorted-keys serializations, hence equal cache
keys), the key fresh before the first invocation, the second invocation
within the 15-minute TTL of the first, and the first invocation returning
`success=true`: the first invocation runs `_execute` at most
`max_retries + 1` times (once when its first attempt succeeds), the second
invocation does not run `_execute` at all, and the second invocation
returns the first invocation's result marked `cached=true`. -/
theorem toolcache_second_call_cached (tool1 tool2 : ToolBehavior) (cache0 : Cache)
    (a1 a2 : List (String × JValue)) (mr1 mr2 : ℕ) (t1 t2 : ℚ) (e1 e2 : ℤ)
    (rng1 rng2 : ℕ → ℚ)
    (hkey : getCacheKey a1 = getCacheKey a2)
    (hfresh : cacheLookup cache0 (getCacheKey a1) = none)
    (httl : t2 - t1 < cacheTTL)
    (hsucc : (execute tool1 cache0 a1 mr1 t1 e1 rng1).1.success = true) :
    (execute tool1 cache0 a1 mr1 t1 e1 rng1).2.2.1 ≤ mr1 + 1
    ∧ (execute tool2 (execute tool1 cache0 a1 mr1 t1 e1 rng1).2.1 a2 mr2 t2 e2 rng2).2.2.1
        = 0
    ∧ (execute tool2 (execute tool1 cache0 a1 mr1 t1 e1 rng1).2.1 a2 mr2 t2 e2 rng2).1 =
        { (execute tool1 cache0 a1 mr1 t1 e1 rng1).1 with cached := true }
    ∧ (execute tool2 (execute tool1 cache0 a1 mr1 t1 e1 rng1).2.1 a2 mr2 t2 e2 rng2).1.cached
        = true := by
  have hstore := execute_fresh_success_stores tool1 cache0 a1 mr1 t1 e1 rng1 hfresh hsucc
  have hlook2 : cacheLookup (execute tool1 cache0 a1 mr1 t1 e1 rng1).2.1 (getCacheKey a2) =
      some ((execute tool1 cache0 a1 mr1 t1 e1 rng1).1, t1) := by
    rw [← hkey, hstore]
    exact cacheLookup_cacheStore_self cache0 (getCacheKey a1)
      ((execute tool1 cache0 a1 mr1 t1 e1 rng1).1, t1)
  have hhit := execute_hit tool2 (execute tool1 cache0 a1 mr1 t1 e1 rng1).2.1 a2 mr2 t2 e2
    rng2 (execute tool1 cache0 a1 mr1 t1 e1 rng1).1 t1 hlook2 httl
  refine ⟨execute_runs_le tool1 cache0 a1 mr1 t1 e1 rng1, ?_, ?_, ?_⟩
  · rw [hhit]
  · rw [hhit]
  · rw [hhit]

/-- The args of the C3 counterexample (identical on both invocations, hence
canonically equal). -/
def c3Args : List (String × JValue) := [("city", .str "Kyoto")]

/-- The successful output of the C3 tool. -/
def c3Out : ToolOutput :=
  { success := true, data := some (.obj (JObj.ofList [("temp_c", .num 21)])) }

/-- First-invocation behavior: the first `_execute` attempt raises, the
retry succeeds. -/
def c3Tool1 : ToolBehavior :=
  { validate := fun _ => .ok ()
    execRun := fun i => if i = 0 then .error "transient network failure" else .ok c3Out }

/-- Second-invocation behavior (never reached: the call is served from the
cache). -/
def c3Tool2 : ToolBehavior :=
  { validate := fun _ => .ok (), execRun := fun _ => .ok c3Out }

/-- The constant jitter draw of the counterexample run. -/
def c3Rng : ℕ → ℚ := fun _ => 1/4

/-- The first invocation: fresh cache, `max_retries = 1`, at `t = 0`. -/
def c3Run1 : ToolOutput × Cache × ℕ × List ℚ := execute c3Tool1 [] c3Args 1 0 5 c3Rng

/-- The second invocation: same args, ten seconds later (well inside the
TTL). -/
def c3Run2 : ToolOutput × Cache × ℕ × List ℚ :=
  execute c3Tool2 c3Run1.2.1 c3Args 1 10 0 c3Rng

/-- Claim C3, counterexample: Two invocations with identical args inside the
TTL window, the first succeeding (after one transient failure and a retry)
and the second served from the cache with `cached=true` — yet `_execute`
ran twice, not at most once: the first invocation's retry already ran it
two times.  (`c3Run1.2.2.1` and `c3Run2.2.2.1` count the `_execute` runs of
the two invocations.) -/
theorem toolcache_execute_runs_twice_counterexample :
    c3Run1.1.success = true
    ∧ c3Run2.1.cached = true
    ∧ c3Run1.2.2.1 = 2
    ∧ c3Run2.2.2.1 = 0
    ∧ ¬ (c3Run1.2.2.1 + c3Run2.2.2.1 ≤ 1) := by
  with_unfolding_all decide

/-- Witness for the amended C3 at the concrete two-invocation run. -/
theorem toolcache_second_call_cached_witness :
    getCacheKey c3Args = getCacheKey c3Args
    ∧ cacheLookup [] (getCacheKey c3Args) = none
    ∧ (10 : ℚ) - 0 < cacheTTL
    ∧ (execute c3Tool1 [] c3Args 1 0 5 c3Rng).1.success = true
    ∧ ((execute c3Tool1 [] c3Args 1 0 5 c3Rng).2.2.1 ≤ 1 + 1
      ∧ (execute c3Tool2 (execute c3Tool1 [] c3Args 1 0 5 c3Rng).2.1 c3Args 1 10 0
          c3Rng).2.2.1 = 0
      ∧ (execute c3Tool2 (execute c3Tool1 [] c3Args 1 0 5 c3Rng).2.1 c3Args 1 10 0
          c3Rng).1 =
          { (execute c3Tool1 [] c3Args 1 0 5 c3Rng).1 with cached := true }
      ∧ (execute c3Tool2 (execute c3Tool1 [] c3Args 1 0 5 c3Rng).2.1 c3Args 1 10 0
          c3Rng).1.cached = true) :=
  ⟨rfl, by with_unfolding_all decide, by norm_num [cacheTTL],
   by with_unfolding_all decide,
   toolcache_second_call_cached c3Tool1 c3Tool2 [] c3Args c3Args 1 1 0 10 5 0 c3Rng c3Rng
     rfl (by with_unfolding_all decide) (by norm_num [cacheTTL])
     (by with_unfolding_all decide)⟩

/-- Claim C6: `RepairReplan.__call__` returns the state unchanged when the
violations list is empty.  Otherwise it applies every suggested patch
operation in order — `modify` merges the suggested args into the first step
carrying the given id (the merge is skipped for a falsy `new_args`, the
reset is not) and resets its status to `"pending"`; `remove` deletes the
steps with the given id; `add` appends the new step — then returns an empty
violations list unconditionally (nothing re-checks that the patches
resolved the violations) and records the repair reasoning in the working
set. -/
theorem repair_applies_patches_and_clears_violations (plan : List PlanStep)
    (v : List Violation) (ws : WorkingSet) (r : RepairPlanOutput) :
    (v = [] → repairCall plan v ws r = (plan, v, ws))
    ∧ (v ≠ [] →
        (repairCall plan v ws r).2.1 = []
        ∧ (repairCall plan v ws r).1 = r.suggestions.foldl applySuggestion plan
        ∧ (repairCall plan v ws r).2.2 =
            dictSet ws "repair_reasoning" (JValue.str r.overall_reasoning))
    ∧ (∀ (p₁ p₂ : List PlanStep) (st : PlanStep) (sg : RepairSuggestion),
        sg.action = "modify" → st.id = sg.step_id → (∀ u ∈ p₁, u.id ≠ sg.step_id) →
        applySuggestion (p₁ ++ st :: p₂) sg =
          p₁ ++ { st with
            args := if optDictTruthy sg.new_args then dictUpdate st.args (sg.new_args.getD [])
                    else st.args,
            status := "pending" } :: p₂)
    ∧ (∀ (p : List PlanStep) (sg : RepairSuggestion), sg.action = "remove" →
        ∀ st, st ∈ applySuggestion p sg ↔ st ∈ p ∧ st.id ≠ sg.step_id)
    ∧ (∀ (p : List PlanStep) (sg : RepairSuggestion) (st : PlanStep),
        sg.action = "add" → sg.new_step = some st →
        applySuggestion p sg = p ++ [st]) := by
  refine ⟨?_, ?_, ?_, ?_, ?_⟩
  · intro hv
    subst hv
    rfl
  · intro hv
    have hne : v.isEmpty = false := by
      cases v with
      | nil => exact absurd rfl hv
      | cons a t => rfl
    unfold repairCall
    rw [hne]
    exact ⟨rfl, rfl, rfl⟩
  · intro p₁ p₂ st sg hact hid hmiss
    unfold applySuggestion
    rw [if_pos (show (sg.action == "modify") = true by simp [hact])]
    clear hact
    induction p₁ with
    | nil =>
      unfold modifyFirst
      simp [hid]
    | cons u t ih =>
      have hu : (u.id == sg.step_id) = false := by
        simpa using hmiss u (List.mem_cons_self u t)
      have ht := ih (fun x hx => hmiss x (List.mem_cons_of_mem u hx))
      simp only [List.cons_append]
      unfold modifyFirst
      rw [if_neg (by simp [hu]), ht]
  · intro p sg hact st
    have hb1 : (sg.action == "modify") = false := by simp [hact]
    have hb2 : (sg.action == "remove") = true := by simp [hact]
    unfold applySuggestion
    rw [hb1, hb2]
    simp only [Bool.false_eq_true, if_false, if_true]
    rw [List.mem_filter]
    simp
  · intro p sg st hact hstep
    have hb1 : (sg.action == "modify") = false := by simp [hact]
    have hb2 : (sg.action == "remove") = false := by simp [hact]
    have hb3 : (sg.action == "add") = true := by simp [hact]
    unfold applySuggestion
    rw [hb1, hb2, hb3, hstep]
    simp

/-- The plan patched in the C6 witness run. -/
def c6Plan : List PlanStep :=
  [{ id := "f1", tool_name := "flights", args := [("budget", .num 1500)],
     status := "completed" },
   { id := "e1", tool_name := "events", args := [], dependencies := ["f1"],
     status := "completed" }]

/-- The structured repair response of the C6 witness run: modify `f1`'s
budget, remove `e1`, add an indoor-events step. -/
def c6Response : RepairPlanOutput :=
  { suggestions :=
      [{ step_id := "f1", action := "modify", new_args := some [("budget", .num 1000)],
         reasoning := "Reduce flight budget to meet overall budget constraint." },
       { step_id := "e1", action := "remove",
         reasoning := "Drop the outdoor event." },
       { step_id := "e2", action := "add",
         new_step := some
           { id := "e2", tool_name := "events",
             args := [("category", .str "indoor")], dependencies := ["f1"] },
         reasoning := "Add an indoor activity for a rainy day." }],
    overall_reasoning := "Cut costs and move activities indoors." }

/-- Witness for C6: a non-empty violations list is cleared and the three
patch kinds act as stated. -/
theorem repair_applies_patches_and_clears_violations_witness :
    [sampleViolation] ≠ ([] : List Violation)
    ∧ ((repairCall c6Plan [sampleViolation] [] c6Response).2.1 = []
      ∧ (repairCall c6Plan [sampleViolation] [] c6Response).1 =
          c6Response.suggestions.foldl applySuggestion c6Plan
      ∧ (repairCall c6Plan [sampleViolation] [] c6Response).2.2 =
          dictSet [] "repair_reasoning" (JValue.str c6Response.overall_reasoning)) :=
  ⟨by decide,
   (repair_applies_patches_and_clears_violations c6Plan [sampleViolation] [] c6Response).2.1
     (by decide)⟩

/-- The step of the C9 record probe. -/
def c9Step : PlanStep :=
  { id := "w1", tool_name := "weather", args := [("city", .str "Kyoto")],
    status := "running" }

/-- A successful tool output as a cache hit delivers it (`cached=true`). -/
def c9HitOutput : ToolOutput :=
  { success := true, data := some (.obj (JObj.ofList [("temp_c", .num 21)])),
    cached := true, duration_ms := some 3 }

/-- The same output as a cache miss delivers it (`cached=false`). -/
def c9MissOutput : ToolOutput := { c9HitOutput with cached := false }

/-- Claim C9, counterexample: The audit-trail record of a cached hit is *not*
flagged as cached: `ToolCall` has no cached field, and the record built by
`ToolExecutor.__call__` from a `cached=true` output equals the record built
from the same output with `cached=false` — cache status is unobservable in
the audit trail, although the two tool outputs themselves differ exactly
there. -/
theorem toolcall_record_not_flagged_cached_counterexample :
    c9HitOutput.cached = true
    ∧ c9MissOutput.cached = false
    ∧ c9HitOutput ≠ c9MissOutput
    ∧ mkToolCall c9Step c9HitOutput 0 = mkToolCall c9Step c9MissOutput 0
    ∧ (toolExecutorCall [c9Step] [] [] (fun _ => c9HitOutput) 0).2.1 =
        (toolExecutorCall [c9Step] [] [] (fun _ => c9MissOutput) 0).2.1 := by
  with_unfolding_all decide

/-- Claim C9, amended: `ToolExecutor.__call__` appends exactly one `ToolCall`
record per `"running"` step (one per step execution attempt that reaches
the Tool Invoker, cached hits included), in plan order; and its entire
output is insensitive to the `cached` flag of the tool outputs, so the
record of a cached hit carries no cached marker. -/
theorem executor_appends_one_record_per_step (plan : List PlanStep) (ws : WorkingSet)
    (tcs : List ToolCall) (outcomes : PlanStep → ToolOutput) (now : ℚ) :
    (toolExecutorCall plan ws tcs outcomes now).2.1 =
      tcs ++ (plan.filter (fun st => st.status == "running")).map
        (fun st => mkToolCall st (outcomes st) now)
    ∧ (toolExecutorCall plan ws tcs outcomes now).2.1.length =
        tcs.length + (plan.filter (fun st => st.status == "running")).length
    ∧ toolExecutorCall plan ws tcs outcomes now =
        toolExecutorCall plan ws tcs (fun st => { outcomes st with cached := false }) now := by
  refine ⟨?_, ?_, rfl⟩
  · unfold toolExecutorCall
    by_cases h : (plan.filter (fun st => st.status == "running")).isEmpty
    · rw [if_pos h]
      rw [List.isEmpty_iff] at h
      rw [h]
      simp
    · rw [if_neg h]
  · unfold toolExecutorCall
    by_cases h : (plan.filter (fun st => st.status == "running")).isEmpty
    · rw [if_pos h]
      rw [List.isEmpty_iff] at h
      rw [h]
      simp
    · rw [if_neg h]
      simp

end TravelAdvisor
